import Mathlib

/-!
Verification of the `tflite-nm` native module (`src/main.rs`).

The module deserializes a `TfLiteInferenceService` job description from the
bytes of `/execution_config` using the postcard wire format
(three `PathBuf` fields, serialized as UTF-8 strings with a `usize` LEB128
varint length header, followed by a `c_int` field serialized as a
zigzag-varint `i32`), then runs one inference pipeline: model load,
interpreter construction, thread configuration, tensor allocation, input
binding, invocation, output extraction, persistence.

Paths are modelled as their underlying byte sequences (`List UInt8`,
Unix `OsStr` semantics).  The inference backend (the `tflite` crate) is
outside the repository and is modelled as an abstract environment recording
the success or failure and the data of each opaque backend call; the
pipeline itself is translated step by step from `TfLiteInferenceService::infer`,
emitting a trace of the calls it makes.
-/

/-! ## Postcard wire format: LEB128 varints -/

/-- LEB128 varint encoding of an unsigned integer, as produced by postcard's
serializer: emit 7 bits at a time, least significant first, setting the
continuation bit `0x80` on every byte except the last. -/
def encodeVarint (n : Nat) : List UInt8 :=
  if h : n < 0x80 then [UInt8.ofNat n]
  else UInt8.ofNat (n % 0x80 + 0x80) :: encodeVarint (n / 0x80)
decreasing_by
  exact Nat.div_lt_self (by omega) (by omega)

/-- One step of postcard's varint decoder (`try_take_varint_*`): at most
`maxB` bytes, accumulating `carry << (7*i)` (with the `w`-bit wrap of the
Rust shift) into `acc` via bitwise or; when the continuation bit is clear on
the last permitted byte, that byte may not exceed `lastMax`
(`max_of_last_byte`).  Any other shape (end of input, too many continuation
bytes, overflowing last byte) is a deserialization error, collapsed to
`none`. -/
def takeVarint (maxB lastMax w : Nat) : List UInt8 → Nat → Nat → Option (Nat × List UInt8)
  | [], _, _ => none
  | b :: rest, i, acc =>
    if maxB ≤ i then none
    else
      let carry := b.toNat % 0x80
      let acc2 := acc ||| (carry <<< (7 * i)) % 2 ^ w
      if b.toNat < 0x80 then
        if i = maxB - 1 ∧ lastMax < b.toNat then none
        else some (acc2, rest)
      else takeVarint maxB lastMax w rest (i + 1) acc2

/-- Postcard `try_take_varint_usize` on a 64-bit target: up to 10 bytes, the
tenth at most `1`. -/
def takeVarintUsize (l : List UInt8) : Option (Nat × List UInt8) :=
  takeVarint 10 1 64 l 0 0

/-- Postcard `try_take_varint_u32`: up to 5 bytes, the fifth at most `0x0F`. -/
def takeVarintU32 (l : List UInt8) : Option (Nat × List UInt8) :=
  takeVarint 5 15 32 l 0 0

/-! ## Zigzag encoding of `i32` -/

/-- Zigzag encoding of a signed integer into an unsigned one
(`(n << 1) ^ (n >> 31)` on `i32`): non-negative `n` maps to `2n`,
negative `n` maps to `-2n - 1`. -/
def zigzagEncode (n : Int) : Nat :=
  if 0 ≤ n then 2 * n.toNat else 2 * (-n).toNat - 1

/-- Postcard `de_zig_zag_i32` (`(z >> 1) as i32 ^ -((z & 1) as i32)`). -/
def zigzagDecode (z : Nat) : Int :=
  if z % 2 = 0 then (z / 2 : Nat) else -((z / 2 : Nat) + 1 : Int)

/-! ## UTF-8 validation (`core::str::from_utf8`) -/

/-- Is `b` a UTF-8 continuation byte (`0x80..=0xBF`)? -/
def isCont (b : UInt8) : Bool := 0x80 ≤ b.toNat && b.toNat ≤ 0xBF

/-- UTF-8 validity of a byte sequence, per RFC 3629 exactly as enforced by
`core::str::from_utf8`: no overlong encodings, no surrogates, no code points
above `U+10FFFF`. -/
def isValidUtf8 : List UInt8 → Bool
  | [] => true
  | b :: rest =>
    if b.toNat < 0x80 then isValidUtf8 rest
    else if b.toNat < 0xC2 then false
    else if b.toNat < 0xE0 then
      match rest with
      | c1 :: r => isCont c1 && isValidUtf8 r
      | _ => false
    else if b.toNat < 0xF0 then
      match rest with
      | c1 :: c2 :: r =>
        (if b.toNat = 0xE0 then 0xA0 ≤ c1.toNat && c1.toNat ≤ 0xBF
         else if b.toNat = 0xED then 0x80 ≤ c1.toNat && c1.toNat ≤ 0x9F
         else isCont c1) && isCont c2 && isValidUtf8 r
      | _ => false
    else if b.toNat < 0xF5 then
      match rest with
      | c1 :: c2 :: c3 :: r =>
        (if b.toNat = 0xF0 then 0x90 ≤ c1.toNat && c1.toNat ≤ 0xBF
         else if b.toNat = 0xF4 then 0x80 ≤ c1.toNat && c1.toNat ≤ 0x8F
         else isCont c1) && isCont c2 && isCont c3 && isValidUtf8 r
      | _ => false
    else false

/-! ## Postcard strings and the four-field schema -/

/-- Postcard `deserialize_str` (as used for `PathBuf`): a `usize` varint
length, then that many bytes, which must be valid UTF-8. -/
def takeString (l : List UInt8) : Option (List UInt8 × List UInt8) := do
  let (n, r) ← takeVarintUsize l
  if n ≤ r.length then
    let s := r.take n
    if isValidUtf8 s then some (s, r.drop n) else none
  else none

/-- Postcard `serialize_str` for a `PathBuf`: `PathBuf::to_str` demands the
path be valid UTF-8 (otherwise serialization errors), and the byte length is
a `usize`, hence below `2 ^ 64`. -/
def encodeString (s : List UInt8) : Option (List UInt8) :=
  if isValidUtf8 s ∧ s.length < 2 ^ 64 then some (encodeVarint s.length ++ s)
  else none

/-- Postcard `deserialize_i32`: a `u32` varint, zigzag-decoded. -/
def takeI32 (l : List UInt8) : Option (Int × List UInt8) := do
  let (z, r) ← takeVarintU32 l
  some (zigzagDecode z, r)

/-- Postcard `serialize_i32`: zigzag, then `u32` varint.  The range
condition is the `c_int` type invariant carried by any Rust value of the
field. -/
def encodeI32 (n : Int) : Option (List UInt8) :=
  if -(2 ^ 31) ≤ n ∧ n < 2 ^ 31 then some (encodeVarint (zigzagEncode n))
  else none

/-- Source `src/main.rs` lines 24-35: the module's API, a four-field record.
`PathBuf` fields are modelled by their underlying bytes, `c_int` by an
integer (every Rust value of the field satisfies the `i32` range). -/
structure TfLiteInferenceService where
  input_tensor_path : List UInt8
  model_path : List UInt8
  output_tensor_path : List UInt8
  num_threads : Int
deriving DecidableEq

/-- Postcard deserialization of the four-field schema, fields in declaration
order, no tags, no self-description.  `postcard::from_bytes` ignores any
bytes left over after the last field. -/
def deserializeService (input : List UInt8) : Option TfLiteInferenceService := do
  let (p1, r1) ← takeString input
  let (p2, r2) ← takeString r1
  let (p3, r3) ← takeString r2
  let (n, _) ← takeI32 r3
  some ⟨p1, p2, p3, n⟩

/-- Postcard serialization of the four-field schema: the concatenation of
the four fields' encodings. -/
def serializeService (svc : TfLiteInferenceService) : Option (List UInt8) := do
  let b1 ← encodeString svc.input_tensor_path
  let b2 ← encodeString svc.model_path
  let b3 ← encodeString svc.output_tensor_path
  let b4 ← encodeI32 svc.num_threads
  some (b1 ++ (b2 ++ (b3 ++ b4)))

/-- Rust `TfLiteInferenceService::new` (lines 39-46): empty paths, `-1` threads. -/
def serviceNew : TfLiteInferenceService := ⟨[], [], [], -1⟩

/-- Rust `TfLiteInferenceService::try_parse` (lines 53-61): on a postcard
deserialization error return `Ok(false)` leaving `self` untouched; on
success overwrite `*self` wholesale and return `Ok(true)`.  The function
never returns `Err`, so its result is modelled as the boolean plus the
updated state. -/
def try_parse (self : TfLiteInferenceService) (input : List UInt8) :
    Bool × TfLiteInferenceService :=
  match deserializeService input with
  | none => (false, self)
  | some d => (true, d)

/-! ## Paths and `Path::join` (Unix `OsStr` semantics) -/

/-- Rust `Path::is_absolute` on Unix: the path begins with a separator. -/
def isAbsolutePath (p : List UInt8) : Bool :=
  match p with
  | b :: _ => b == 0x2F
  | [] => false

/-- Rust `Path::join base p` on Unix: an absolute `p` replaces `base`; otherwise
`p` is appended, inserting a separator unless `base` is empty or already
ends with one. -/
def pathJoin (base p : List UInt8) : List UInt8 :=
  if isAbsolutePath p then p
  else if base = [] ∨ base.getLast? = some 0x2F then base ++ p
  else base ++ 0x2F :: p

/-- The fixed root directory `"/"` of line 107. -/
def rootDir : List UInt8 := [0x2F]

/-! ## The inference pipeline -/

/-- The calls `infer` makes, in order, to the filesystem and to the opaque
`tflite` backend.  An event records that the call was <b>attempted</b>; the
environment decides whether it succeeds. -/
inductive Event where
  | loadModel (p : List UInt8)
  | newBuilder
  | buildInterpreter
  | setNumThreads (n : Int)
  | allocateTensors
  | openInput (p : List UInt8)
  | readInput (bytes : List UInt8)
  | invoke
  | readOutput
  | createFile (p : List UInt8)
  | writeFile (p : List UInt8) (bytes : List UInt8)
deriving DecidableEq

/-- The error returned (as `anyhow::Result::Err`, via `?`) by each fallible
step of `infer`. -/
inductive InferErr where
  | modelLoad
  | builderNew
  | interpBuild
  | alloc
  | inputOpen
  | tensorData
  | inputEof
  | invokeFail
  | outputData
  | createFail
  | writeFail
deriving DecidableEq

/-- The two ways `infer` can panic: the `assert_eq!(inputs.len(), 1)` on
line 89, and the unchecked `outputs[0]` index on line 102. -/
inductive PanicKind where
  | assertInputsLen
  | outputsIndexOutOfBounds
deriving DecidableEq

/-- Result of one run of `infer`: `Ok(())`, `Err(e)` through `?`, or a
panic that unwinds past the function. -/
inductive RunOutcome where
  | ok
  | fail (e : InferErr)
  | panicked (k : PanicKind)
deriving DecidableEq

/-- The opaque surroundings of `infer`: the filesystem and the `tflite`
backend, both outside this repository.  Each field gives the
success/failure (and, where relevant, the data) of one kind of external
call; the pipeline code itself is what is under verification. -/
structure Env where
  /-- File contents by path: `File::open`/`read` (`none` = open fails). -/
  fs : List UInt8 → Option (List UInt8)
  /-- `FlatBufferModel::build_from_file` succeeds on this path. -/
  modelOk : List UInt8 → Bool
  /-- `InterpreterBuilder::new` succeeds. -/
  builderOk : Bool
  /-- `builder.build()` succeeds. -/
  buildOk : Bool
  /-- `interpreter.allocate_tensors()` succeeds. -/
  allocOk : Bool
  /-- `interpreter.inputs()`: the model's input tensor indices. -/
  inputs : List Nat
  /-- `interpreter.outputs()`: the model's output tensor indices. -/
  outputs : List Nat
  /-- Byte length of `tensor_data_mut(i)` (`none` = the call errors). -/
  tensorLen : Nat → Option Nat
  /-- `interpreter.invoke()` succeeds. -/
  invokeOk : Bool
  /-- Bytes of `tensor_data(i)` (`none` = the call errors). -/
  outData : Nat → Option (List UInt8)
  /-- `File::create` succeeds on this path. -/
  createOk : List UInt8 → Bool
  /-- `file.write_all` succeeds. -/
  writeOk : Bool

/-- Rust `TfLiteInferenceService::infer` (lines 67-111), translated step by step:
model load, builder construction, interpreter build, `set_num_threads`,
`allocate_tensors`, `assert_eq!(inputs.len(), 1)`, `File::open` of the
input, `tensor_data_mut`, `read_exact` (fails iff the file holds fewer
bytes than the tensor; extra bytes are simply not read), `invoke`,
unchecked `outputs[0]`, `tensor_data`, `File::create` of
`Path::new("/").join(output_tensor_path)`, `write_all`.  Returns the
outcome and the trace of attempted calls. -/
def infer (env : Env) (svc : TfLiteInferenceService) :
    RunOutcome × List Event :=
  let tr1 := [Event.loadModel svc.model_path]
  if env.modelOk svc.model_path = false then (.fail .modelLoad, tr1) else
  let tr2 := tr1 ++ [Event.newBuilder]
  if env.builderOk = false then (.fail .builderNew, tr2) else
  let tr3 := tr2 ++ [Event.buildInterpreter]
  if env.buildOk = false then (.fail .interpBuild, tr3) else
  let tr4 := tr3 ++ [Event.setNumThreads svc.num_threads]
  let tr5 := tr4 ++ [Event.allocateTensors]
  if env.allocOk = false then (.fail .alloc, tr5) else
  match env.inputs with
  | [] => (.panicked .assertInputsLen, tr5)
  | _ :: _ :: _ => (.panicked .assertInputsLen, tr5)
  | [input_index] =>
    let tr6 := tr5 ++ [Event.openInput svc.input_tensor_path]
    match env.fs svc.input_tensor_path with
    | none => (.fail .inputOpen, tr6)
    | some contents =>
      match env.tensorLen input_index with
      | none => (.fail .tensorData, tr6)
      | some len =>
        let tr7 := tr6 ++ [Event.readInput (contents.take len)]
        if contents.length < len then (.fail .inputEof, tr7) else
        let tr8 := tr7 ++ [Event.invoke]
        if env.invokeOk = false then (.fail .invokeFail, tr8) else
        match env.outputs with
        | [] => (.panicked .outputsIndexOutOfBounds, tr8)
        | output_index :: _ =>
          let tr9 := tr8 ++ [Event.readOutput]
          match env.outData output_index with
          | none => (.fail .outputData, tr9)
          | some out =>
            let dest := pathJoin rootDir svc.output_tensor_path
            let tr10 := tr9 ++ [Event.createFile dest]
            if env.createOk dest = false then (.fail .createFail, tr10) else
            let tr11 := tr10 ++ [Event.writeFile dest out]
            if env.writeOk = false then (.fail .writeFail, tr11) else
            (.ok, tr11)

/-! ## The process entry point -/

/-- The fixed configuration path `"/execution_config"` of line 120. -/
def execConfigPath : List UInt8 :=
  [0x2F, 0x65, 0x78, 0x65, 0x63, 0x75, 0x74, 0x69, 0x6F, 0x6E,
   0x5F, 0x63, 0x6F, 0x6E, 0x66, 0x69, 0x67]

/-- Result of `main`: an early `Err` when the configuration file cannot be
opened, otherwise whatever the pipeline run produced. -/
inductive MainResult where
  | configOpenErr
  | ran (r : RunOutcome)
deriving DecidableEq

/-- Rust `main` (lines 114-127), translated step by step: open and read
`/execution_config` (propagating an open failure via `?`), call
`try_parse` — whose `Ok(bool)` the `?` operator unwraps and the statement
then <b>discards</b> — and call `infer` unconditionally on whatever state
the service struct holds. -/
def mainRun (env : Env) : MainResult × List Event :=
  match env.fs execConfigPath with
  | none => (.configOpenErr, [])
  | some input =>
    let parsed := try_parse serviceNew input
    let run := infer env parsed.2
    (.ran run.1, run.2)

/-! ## Concrete instances used to exhibit behaviours -/

/-- Does the outcome return an error `Result` to the caller (as opposed to
succeeding or panicking)? -/
def RunOutcome.isErr : RunOutcome → Bool
  | .fail _ => true
  | _ => false

/-- An environment whose configuration file holds the empty byte sequence —
which `postcard` cannot decode — and where every opaque call fails. -/
def envParseFail : Env where
  fs := fun p => if p = execConfigPath then some [] else none
  modelOk := fun _ => false
  builderOk := false
  buildOk := false
  allocOk := false
  inputs := []
  outputs := []
  tensorLen := fun _ => none
  invokeOk := false
  outData := fun _ => none
  createOk := fun _ => false
  writeOk := false

/-- A job description: input `"i"`, model `"m"`, output `"o"`, one thread. -/
def svcDemo : TfLiteInferenceService := ⟨[0x69], [0x6D], [0x6F], 1⟩

/-- A job description whose output path `"/o"` is absolute. -/
def svcAbsOut : TfLiteInferenceService := ⟨[0x69], [0x6D], [0x2F, 0x6F], 1⟩

/-- A healthy backend: single input tensor of 2 bytes, single output tensor
holding `[7, 8]`, input file `"i"` holding 3 bytes. -/
def envHappy : Env where
  fs := fun p => if p = [0x69] then some [9, 9, 9] else none
  modelOk := fun _ => true
  builderOk := true
  buildOk := true
  allocOk := true
  inputs := [0]
  outputs := [5]
  tensorLen := fun _ => some 2
  invokeOk := true
  outData := fun _ => some [7, 8]
  createOk := fun _ => true
  writeOk := true

/-- Like `envHappy`, but the model has two input tensors. -/
def envTwoInputs : Env :=
  { envHappy with inputs := [0, 1] }

/-- Like `envHappy`, but the input tensor wants more bytes than the file holds. -/
def envShortInput : Env :=
  { envHappy with tensorLen := fun _ => some 4 }

/-- Like `envHappy`, but the model has zero output tensors. -/
def envNoOutputs : Env :=
  { envHappy with outputs := [] }

lemma uint8_toNat_ofNat (n : Nat) : (UInt8.ofNat n).toNat = n % 256 := by
  simp [UInt8.ofNat, UInt8.toNat, Fin.ofNat]

lemma lor_mul_pow_eq_add (k : Nat) : ∀ a b : Nat, a < 2 ^ k → a ||| b * 2 ^ k = a + b * 2 ^ k := by
  induction k with
  | zero =>
    intro a b h
    have : a = 0 := Nat.lt_one_iff.mp (by simpa using h)
    subst this
    simp
  | succ k ih =>
    intro a b h
    have ha : Nat.bit (a.testBit 0) (a >>> 1) = a := Nat.bit_testBit_zero_shiftRight_one a
    have hb : b * 2 ^ (k + 1) = Nat.bit false (b * 2 ^ k) := by
      simp [Nat.bit_val]; ring
    have h2 : a >>> 1 < 2 ^ k := by
      rw [Nat.shiftRight_one]
      omega
    calc a ||| b * 2 ^ (k + 1)
        = Nat.bit (a.testBit 0) (a >>> 1) ||| Nat.bit false (b * 2 ^ k) := by rw [ha, ← hb]
      _ = Nat.bit (a.testBit 0 || false) ((a >>> 1) ||| b * 2 ^ k) := by rw [Nat.lor_bit]
      _ = Nat.bit (a.testBit 0) ((a >>> 1) + b * 2 ^ k) := by rw [Bool.or_false, ih _ b h2]
      _ = a + b * 2 ^ (k + 1) := by
          have ha2 : 2 * (a >>> 1) + (a.testBit 0).toNat = a := by
            rw [← Nat.bit_val]; exact ha
          have hp : b * 2 ^ (k + 1) = 2 * (b * 2 ^ k) := by ring
          simp only [Nat.bit_val, hp]
          omega

theorem takeVarint_encodeVarint (maxB lastMax w : Nat)
    (hmax : 0 < maxB) (hsmall : lastMax < 0x80)
    (hlast : (lastMax + 1) * 2 ^ (7 * (maxB - 1)) = 2 ^ w) :
    ∀ m i acc rest, i < maxB → acc < 2 ^ (7 * i) → m * 2 ^ (7 * i) < 2 ^ w →
      takeVarint maxB lastMax w (encodeVarint m ++ rest) i acc =
        some (acc + m * 2 ^ (7 * i), rest) := by
  intro m
  induction m using Nat.strong_induction_on with
  | _ m ih =>
    intro i acc rest hi hacc hm
    have hwshift : ∀ c : Nat, c ≤ m ∨ c < 0x80 ∧ 7 * (i + 1) ≤ 7 * (maxB - 1) →
        (c <<< (7 * i)) % 2 ^ w = c * 2 ^ (7 * i) := by
      intro c hc
      rw [Nat.shiftLeft_eq]
      apply Nat.mod_eq_of_lt
      rcases hc with hc | ⟨hc, hle⟩
      · exact lt_of_le_of_lt (by exact Nat.mul_le_mul_right _ hc) hm
      · have hpos : (0 : Nat) < 2 ^ (7 * i) := by positivity
        calc c * 2 ^ (7 * i) < 2 ^ 7 * 2 ^ (7 * i) := (Nat.mul_lt_mul_right hpos).mpr hc
          _ = 2 ^ (7 * (i + 1)) := by
              rw [← pow_add]
              congr 1
              ring
          _ ≤ 2 ^ (7 * (maxB - 1)) := Nat.pow_le_pow_right (by omega) hle
          _ ≤ 2 ^ w := by
              calc 2 ^ (7 * (maxB - 1)) ≤ (lastMax + 1) * 2 ^ (7 * (maxB - 1)) := by
                    exact Nat.le_mul_of_pos_left _ (by omega)
                _ = 2 ^ w := hlast
    rw [encodeVarint]
    by_cases h128 : m < 0x80
    · rw [dif_pos h128]
      simp only [List.append_eq, List.cons_append, List.nil_append, takeVarint]
      rw [if_neg (by omega)]
      have hb : (UInt8.ofNat m).toNat = m := by
        rw [uint8_toNat_ofNat]; omega
      simp only [hb]
      have hcarry : m % 0x80 = m := Nat.mod_eq_of_lt h128
      rw [hcarry]
      rw [hwshift m (Or.inl le_rfl)]
      rw [lor_mul_pow_eq_add _ _ _ hacc]
      rw [if_pos h128]
      have hnot : ¬(i = maxB - 1 ∧ lastMax < m) := by
        rintro ⟨hieq, hlt⟩
        subst hieq
        rw [← hlast] at hm
        have := Nat.lt_of_mul_lt_mul_right hm
        omega
      rw [if_neg hnot]
    · rw [dif_neg h128]
      simp only [List.append_eq, List.cons_append, takeVarint]
      rw [if_neg (by omega)]
      have hb : (UInt8.ofNat (m % 0x80 + 0x80)).toNat = m % 0x80 + 0x80 := by
        rw [uint8_toNat_ofNat]; omega
      simp only [hb]
      have hcarry : (m % 0x80 + 0x80) % 0x80 = m % 0x80 := by omega
      rw [hcarry]
      -- i cannot be the last byte slot
      have hilt : i < maxB - 1 := by
        rcases Nat.lt_or_ge i (maxB - 1) with h | h
        · exact h
        · exfalso
          have hieq : i = maxB - 1 := by omega
          subst hieq
          rw [← hlast] at hm
          have := Nat.lt_of_mul_lt_mul_right hm
          omega
      rw [hwshift (m % 0x80) (Or.inr ⟨by omega, by omega⟩)]
      rw [lor_mul_pow_eq_add _ _ _ hacc]
      rw [if_neg (by omega)]
      have hrec := ih (m / 0x80) (Nat.div_lt_self (by omega) (by omega)) (i + 1)
        (acc + m % 0x80 * 2 ^ (7 * i)) rest (by omega)
        (by
          have h1 : m % 0x80 * 2 ^ (7 * i) ≤ 127 * 2 ^ (7 * i) := by
            exact Nat.mul_le_mul_right _ (by omega)
          have h2 : (2 : Nat) ^ (7 * (i + 1)) = 128 * 2 ^ (7 * i) := by ring_nf
          omega)
        (by
          have h1 : m / 0x80 * 2 ^ (7 * (i + 1)) ≤ m * 2 ^ (7 * i) := by
            have h2 : (2 : Nat) ^ (7 * (i + 1)) = 2 ^ (7 * i) * 128 := by ring_nf
            have h3 : m / 0x80 * 0x80 ≤ m := Nat.div_mul_le_self m 0x80
            calc m / 0x80 * 2 ^ (7 * (i + 1)) = m / 0x80 * 0x80 * 2 ^ (7 * i) := by
                  rw [h2]; ring
              _ ≤ m * 2 ^ (7 * i) := Nat.mul_le_mul_right _ h3
          omega)
      rw [hrec]
      congr 2
      have h2 : (2 : Nat) ^ (7 * (i + 1)) = 2 ^ (7 * i) * 128 := by ring_nf
      have hm2 : m % 0x80 + 0x80 * (m / 0x80) = m := by omega
      calc acc + m % 0x80 * 2 ^ (7 * i) + m / 0x80 * 2 ^ (7 * (i + 1))
          = acc + (m % 0x80 + 0x80 * (m / 0x80)) * 2 ^ (7 * i) := by rw [h2]; ring
        _ = acc + m * 2 ^ (7 * i) := by rw [hm2]

theorem takeVarintUsize_encode (n : Nat) (rest : List UInt8) (h : n < 2 ^ 64) :
    takeVarintUsize (encodeVarint n ++ rest) = some (n, rest) := by
  have := takeVarint_encodeVarint 10 1 64 (by omega) (by omega) (by norm_num)
    n 0 0 rest (by omega) (by norm_num) (by simpa using h)
  simpa [takeVarintUsize] using this

theorem takeVarintU32_encode (n : Nat) (rest : List UInt8) (h : n < 2 ^ 32) :
    takeVarintU32 (encodeVarint n ++ rest) = some (n, rest) := by
  have := takeVarint_encodeVarint 5 15 32 (by omega) (by omega) (by norm_num)
    n 0 0 rest (by omega) (by norm_num) (by simpa using h)
  simpa [takeVarintU32] using this

theorem takeString_encodeString (s bs : List UInt8) (h : encodeString s = some bs)
    (rest : List UInt8) : takeString (bs ++ rest) = some (s, rest) := by
  unfold encodeString at h
  split at h
  case isFalse => exact absurd h (by simp)
  case isTrue hv =>
    obtain ⟨hutf, hlen⟩ := hv
    obtain rfl : encodeVarint s.length ++ s = bs := by
      simpa using h
    rw [List.append_assoc]
    unfold takeString
    rw [takeVarintUsize_encode s.length (s ++ rest) hlen]
    simp only [Option.bind_eq_bind, Option.some_bind]
    rw [if_pos (by simp)]
    rw [List.take_left, List.drop_left]
    rw [if_pos hutf]

theorem zigzagDecode_zigzagEncode (n : Int) : zigzagDecode (zigzagEncode n) = n := by
  unfold zigzagEncode zigzagDecode
  by_cases h : 0 ≤ n
  · rw [if_pos h]
    rw [if_pos (by omega)]
    omega
  · rw [if_neg h]
    have h1 : 1 ≤ (-n).toNat := by omega
    rw [if_neg (by omega)]
    omega

theorem zigzagEncode_lt (n : Int) (h1 : -(2 ^ 31) ≤ n) (h2 : n < 2 ^ 31) :
    zigzagEncode n < 2 ^ 32 := by
  unfold zigzagEncode
  split <;> omega

theorem takeI32_encodeI32 (n : Int) (bs : List UInt8) (h : encodeI32 n = some bs)
    (rest : List UInt8) : takeI32 (bs ++ rest) = some (n, rest) := by
  unfold encodeI32 at h
  split at h
  case isFalse => exact absurd h (by simp)
  case isTrue hv =>
    obtain rfl : encodeVarint (zigzagEncode n) = bs := by simpa using h
    unfold takeI32
    rw [takeVarintU32_encode (zigzagEncode n) rest (zigzagEncode_lt n hv.1 hv.2)]
    simp [zigzagDecode_zigzagEncode]

theorem deserializeService_serializeService (svc : TfLiteInferenceService)
    (bs : List UInt8) (h : serializeService svc = some bs) :
    deserializeService bs = some svc := by
  unfold serializeService at h
  obtain ⟨b1, h1, hrest1⟩ := Option.bind_eq_some.mp h
  obtain ⟨b2, h2, hrest2⟩ := Option.bind_eq_some.mp hrest1
  obtain ⟨b3, h3, hrest3⟩ := Option.bind_eq_some.mp hrest2
  obtain ⟨b4, h4, hrest4⟩ := Option.bind_eq_some.mp hrest3
  obtain rfl : b1 ++ (b2 ++ (b3 ++ b4)) = bs := by simpa using hrest4
  unfold deserializeService
  rw [takeString_encodeString _ _ h1]
  simp only [Option.bind_eq_bind, Option.some_bind]
  rw [takeString_encodeString _ _ h2]
  simp only [Option.bind_eq_bind, Option.some_bind]
  rw [takeString_encodeString _ _ h3]
  simp only [Option.bind_eq_bind, Option.some_bind]
  have hb4 : b4 = b4 ++ [] := by simp
  rw [hb4, takeI32_encodeI32 _ _ h4]
  simp


theorem infer_cases (env : Env) (svc : TfLiteInferenceService) :
    (env.modelOk svc.model_path = false ∧
      infer env svc = (.fail .modelLoad, [.loadModel svc.model_path])) ∨
    (env.modelOk svc.model_path = true ∧ env.builderOk = false ∧
      infer env svc = (.fail .builderNew,
        [.loadModel svc.model_path, .newBuilder])) ∨
    (env.modelOk svc.model_path = true ∧ env.builderOk = true ∧
      env.buildOk = false ∧
      infer env svc = (.fail .interpBuild,
        [.loadModel svc.model_path, .newBuilder, .buildInterpreter])) ∨
    (env.modelOk svc.model_path = true ∧ env.builderOk = true ∧
      env.buildOk = true ∧ env.allocOk = false ∧
      infer env svc = (.fail .alloc,
        [.loadModel svc.model_path, .newBuilder, .buildInterpreter,
         .setNumThreads svc.num_threads, .allocateTensors])) ∨
    (env.modelOk svc.model_path = true ∧ env.builderOk = true ∧
      env.buildOk = true ∧ env.allocOk = true ∧ env.inputs.length ≠ 1 ∧
      infer env svc = (.panicked .assertInputsLen,
        [.loadModel svc.model_path, .newBuilder, .buildInterpreter,
         .setNumThreads svc.num_threads, .allocateTensors])) ∨
    (∃ ii, env.modelOk svc.model_path = true ∧ env.builderOk = true ∧
      env.buildOk = true ∧ env.allocOk = true ∧ env.inputs = [ii] ∧
      env.fs svc.input_tensor_path = none ∧
      infer env svc = (.fail .inputOpen,
        [.loadModel svc.model_path, .newBuilder, .buildInterpreter,
         .setNumThreads svc.num_threads, .allocateTensors,
         .openInput svc.input_tensor_path])) ∨
    (∃ ii contents, env.modelOk svc.model_path = true ∧ env.builderOk = true ∧
      env.buildOk = true ∧ env.allocOk = true ∧ env.inputs = [ii] ∧
      env.fs svc.input_tensor_path = some contents ∧ env.tensorLen ii = none ∧
      infer env svc = (.fail .tensorData,
        [.loadModel svc.model_path, .newBuilder, .buildInterpreter,
         .setNumThreads svc.num_threads, .allocateTensors,
         .openInput svc.input_tensor_path])) ∨
    (∃ ii contents len, env.modelOk svc.model_path = true ∧
      env.builderOk = true ∧ env.buildOk = true ∧ env.allocOk = true ∧
      env.inputs = [ii] ∧ env.fs svc.input_tensor_path = some contents ∧
      env.tensorLen ii = some len ∧ contents.length < len ∧
      infer env svc = (.fail .inputEof,
        [.loadModel svc.model_path, .newBuilder, .buildInterpreter,
         .setNumThreads svc.num_threads, .allocateTensors,
         .openInput svc.input_tensor_path, .readInput (contents.take len)])) ∨
    (∃ ii contents len, env.modelOk svc.model_path = true ∧
      env.builderOk = true ∧ env.buildOk = true ∧ env.allocOk = true ∧
      env.inputs = [ii] ∧ env.fs svc.input_tensor_path = some contents ∧
      env.tensorLen ii = some len ∧ len ≤ contents.length ∧
      env.invokeOk = false ∧
      infer env svc = (.fail .invokeFail,
        [.loadModel svc.model_path, .newBuilder, .buildInterpreter,
         .setNumThreads svc.num_threads, .allocateTensors,
         .openInput svc.input_tensor_path, .readInput (contents.take len),
         .invoke])) ∨
    (∃ ii contents len, env.modelOk svc.model_path = true ∧
      env.builderOk = true ∧ env.buildOk = true ∧ env.allocOk = true ∧
      env.inputs = [ii] ∧ env.fs svc.input_tensor_path = some contents ∧
      env.tensorLen ii = some len ∧ len ≤ contents.length ∧
      env.invokeOk = true ∧ env.outputs = [] ∧
      infer env svc = (.panicked .outputsIndexOutOfBounds,
        [.loadModel svc.model_path, .newBuilder, .buildInterpreter,
         .setNumThreads svc.num_threads, .allocateTensors,
         .openInput svc.input_tensor_path, .readInput (contents.take len),
         .invoke])) ∨
    (∃ ii contents len oi orest, env.modelOk svc.model_path = true ∧
      env.builderOk = true ∧ env.buildOk = true ∧ env.allocOk = true ∧
      env.inputs = [ii] ∧ env.fs svc.input_tensor_path = some contents ∧
      env.tensorLen ii = some len ∧ len ≤ contents.length ∧
      env.invokeOk = true ∧ env.outputs = oi :: orest ∧
      env.outData oi = none ∧
      infer env svc = (.fail .outputData,
        [.loadModel svc.model_path, .newBuilder, .buildInterpreter,
         .setNumThreads svc.num_threads, .allocateTensors,
         .openInput svc.input_tensor_path, .readInput (contents.take len),
         .invoke, .readOutput])) ∨
    (∃ ii contents len oi orest out, env.modelOk svc.model_path = true ∧
      env.builderOk = true ∧ env.buildOk = true ∧ env.allocOk = true ∧
      env.inputs = [ii] ∧ env.fs svc.input_tensor_path = some contents ∧
      env.tensorLen ii = some len ∧ len ≤ contents.length ∧
      env.invokeOk = true ∧ env.outputs = oi :: orest ∧
      env.outData oi = some out ∧
      env.createOk (pathJoin rootDir svc.output_tensor_path) = false ∧
      infer env svc = (.fail .createFail,
        [.loadModel svc.model_path, .newBuilder, .buildInterpreter,
         .setNumThreads svc.num_threads, .allocateTensors,
         .openInput svc.input_tensor_path, .readInput (contents.take len),
         .invoke, .readOutput,
         .createFile (pathJoin rootDir svc.output_tensor_path)])) ∨
    (∃ ii contents len oi orest out, env.modelOk svc.model_path = true ∧
      env.builderOk = true ∧ env.buildOk = true ∧ env.allocOk = true ∧
      env.inputs = [ii] ∧ env.fs svc.input_tensor_path = some contents ∧
      env.tensorLen ii = some len ∧ len ≤ contents.length ∧
      env.invokeOk = true ∧ env.outputs = oi :: orest ∧
      env.outData oi = some out ∧
      env.createOk (pathJoin rootDir svc.output_tensor_path) = true ∧
      env.writeOk = false ∧
      infer env svc = (.fail .writeFail,
        [.loadModel svc.model_path, .newBuilder, .buildInterpreter,
         .setNumThreads svc.num_threads, .allocateTensors,
         .openInput svc.input_tensor_path, .readInput (contents.take len),
         .invoke, .readOutput,
         .createFile (pathJoin rootDir svc.output_tensor_path),
         .writeFile (pathJoin rootDir svc.output_tensor_path) out])) ∨
    (∃ ii contents len oi orest out, env.modelOk svc.model_path = true ∧
      env.builderOk = true ∧ env.buildOk = true ∧ env.allocOk = true ∧
      env.inputs = [ii] ∧ env.fs svc.input_tensor_path = some contents ∧
      env.tensorLen ii = some len ∧ len ≤ contents.length ∧
      env.invokeOk = true ∧ env.outputs = oi :: orest ∧
      env.outData oi = some out ∧
      env.createOk (pathJoin rootDir svc.output_tensor_path) = true ∧
      env.writeOk = true ∧
      infer env svc = (.ok,
        [.loadModel svc.model_path, .newBuilder, .buildInterpreter,
         .setNumThreads svc.num_threads, .allocateTensors,
         .openInput svc.input_tensor_path, .readInput (contents.take len),
         .invoke, .readOutput,
         .createFile (pathJoin rootDir svc.output_tensor_path),
         .writeFile (pathJoin rootDir svc.output_tensor_path) out])) := by
  cases hmo : env.modelOk svc.model_path
  · exact Or.inl ⟨rfl, by simp [infer, hmo]⟩
  · cases hbn : env.builderOk
    · exact Or.inr (Or.inl ⟨rfl, rfl, by simp [infer, hmo, hbn]⟩)
    · cases hbd : env.buildOk
      · exact Or.inr (Or.inr (Or.inl ⟨rfl, rfl, rfl, by simp [infer, hmo, hbn, hbd]⟩))
      · cases hal : env.allocOk
        · exact Or.inr (Or.inr (Or.inr (Or.inl ⟨rfl, rfl, rfl, rfl,
            by simp [infer, hmo, hbn, hbd, hal]⟩)))
        · rcases hin : env.inputs with _ | ⟨ii, _ | ⟨b, l⟩⟩
          · refine Or.inr (Or.inr (Or.inr (Or.inr (Or.inl
              ⟨rfl, rfl, rfl, rfl, by simp, ?_⟩))))
            simp [infer, hmo, hbn, hbd, hal, hin]
          · cases hfs : env.fs svc.input_tensor_path with
            | none =>
              refine Or.inr (Or.inr (Or.inr (Or.inr (Or.inr (Or.inl
                ⟨ii, rfl, rfl, rfl, rfl, rfl, rfl, ?_⟩)))))
              simp [infer, hmo, hbn, hbd, hal, hin, hfs]
            | some contents =>
              cases htl : env.tensorLen ii with
              | none =>
                refine Or.inr (Or.inr (Or.inr (Or.inr (Or.inr (Or.inr (Or.inl
                  ⟨ii, contents, rfl, rfl, rfl, rfl, rfl, rfl, htl, ?_⟩))))))
                simp [infer, hmo, hbn, hbd, hal, hin, hfs, htl]
              | some len =>
                rcases Nat.lt_or_ge contents.length len with hlen | hlen
                · refine Or.inr (Or.inr (Or.inr (Or.inr (Or.inr (Or.inr (Or.inr (Or.inl
                    ⟨ii, contents, len, rfl, rfl, rfl, rfl, rfl, rfl, htl, hlen, ?_⟩)))))))
                  simp [infer, hmo, hbn, hbd, hal, hin, hfs, htl, hlen]
                · cases hiv : env.invokeOk
                  · refine Or.inr (Or.inr (Or.inr (Or.inr (Or.inr (Or.inr (Or.inr (Or.inr (Or.inl
                      ⟨ii, contents, len, rfl, rfl, rfl, rfl, rfl, rfl, htl, hlen, rfl, ?_⟩))))))))
                    simp [infer, hmo, hbn, hbd, hal, hin, hfs, htl, Nat.not_lt.mpr hlen, hiv]
                  · rcases hout : env.outputs with _ | ⟨oi, orest⟩
                    · refine Or.inr (Or.inr (Or.inr (Or.inr (Or.inr (Or.inr (Or.inr (Or.inr (Or.inr (Or.inl
                        ⟨ii, contents, len, rfl, rfl, rfl, rfl, rfl, rfl, htl, hlen, rfl, rfl, ?_⟩)))))))))
                      simp [infer, hmo, hbn, hbd, hal, hin, hfs, htl, Nat.not_lt.mpr hlen, hiv, hout]
                    · cases hod : env.outData oi with
                      | none =>
                        refine Or.inr (Or.inr (Or.inr (Or.inr (Or.inr (Or.inr (Or.inr (Or.inr (Or.inr (Or.inr (Or.inl
                          ⟨ii, contents, len, oi, orest, rfl, rfl, rfl, rfl, rfl, rfl, htl, hlen, rfl, rfl, hod, ?_⟩))))))))))
                        simp [infer, hmo, hbn, hbd, hal, hin, hfs, htl, Nat.not_lt.mpr hlen, hiv, hout, hod]
                      | some out =>
                        cases hcr : env.createOk (pathJoin rootDir svc.output_tensor_path)
                        · refine Or.inr (Or.inr (Or.inr (Or.inr (Or.inr (Or.inr (Or.inr (Or.inr (Or.inr (Or.inr (Or.inr (Or.inl
                            ⟨ii, contents, len, oi, orest, out, rfl, rfl, rfl, rfl, rfl, rfl, htl, hlen, rfl, rfl, hod, rfl, ?_⟩)))))))))))
                          simp [infer, hmo, hbn, hbd, hal, hin, hfs, htl, Nat.not_lt.mpr hlen, hiv, hout, hod, hcr]
                        · cases hwr : env.writeOk
                          · refine Or.inr (Or.inr (Or.inr (Or.inr (Or.inr (Or.inr (Or.inr (Or.inr (Or.inr (Or.inr (Or.inr (Or.inr (Or.inl
                              ⟨ii, contents, len, oi, orest, out, rfl, rfl, rfl, rfl, rfl, rfl, htl, hlen, rfl, rfl, hod, rfl, rfl, ?_⟩))))))))))))
                            simp [infer, hmo, hbn, hbd, hal, hin, hfs, htl, Nat.not_lt.mpr hlen, hiv, hout, hod, hcr, hwr]
                          · refine Or.inr (Or.inr (Or.inr (Or.inr (Or.inr (Or.inr (Or.inr (Or.inr (Or.inr (Or.inr (Or.inr (Or.inr (Or.inr
                              ⟨ii, contents, len, oi, orest, out, rfl, rfl, rfl, rfl, rfl, rfl, htl, hlen, rfl, rfl, hod, rfl, rfl, ?_⟩))))))))))))
                            simp [infer, hmo, hbn, hbd, hal, hin, hfs, htl, Nat.not_lt.mpr hlen, hiv, hout, hod, hcr, hwr]
          · refine Or.inr (Or.inr (Or.inr (Or.inr (Or.inl
              ⟨rfl, rfl, rfl, rfl, by simp, ?_⟩))))
            simp [infer, hmo, hbn, hbd, hal, hin]

/-! ## Claims -/

/-- C4: on every byte sequence that postcard cannot deserialize, `try_parse`
returns the soft "not a job" result (`Ok(false)`, never an exception past
the caller) and leaves every field of the descriptor unchanged; on a
successful parse the whole four-field record is replaced at once by the
decoded one. -/
theorem c4_try_parse_soft_and_atomic (s : TfLiteInferenceService)
    (input : List UInt8) :
    (deserializeService input = none → try_parse s input = (false, s)) ∧
    (∀ d, deserializeService input = some d → try_parse s input = (true, d)) := by
  constructor
  · intro h
    simp [try_parse, h]
  · intro d h
    simp [try_parse, h]

/-- Witness for C4: the single byte `0xFF` (a truncated varint) is rejected
and mutates nothing; a four-field encoding of the all-empty record parses
and replaces every field. -/
theorem c4_witness :
    try_parse serviceNew [0xFF] = (false, serviceNew) ∧
    try_parse serviceNew [0, 0, 0, 0] = (true, ⟨[], [], [], 0⟩) :=
  ⟨(c4_try_parse_soft_and_atomic serviceNew [0xFF]).1 (by decide),
   (c4_try_parse_soft_and_atomic serviceNew [0, 0, 0, 0]).2 _ (by decide)⟩

/-- C5: serializing any `TfLiteInferenceService` with the postcard schema
and feeding the bytes to the parser succeeds and returns a descriptor
field-for-field equal to the original, whatever state the parser started
in. -/
theorem c5_serialize_parse_roundtrip (svc : TfLiteInferenceService)
    (bs : List UInt8) (h : serializeService svc = some bs)
    (s0 : TfLiteInferenceService) :
    try_parse s0 bs = (true, svc) := by
  simp [try_parse, deserializeService_serializeService svc bs h]

/-- Witness for C5: the record with paths `"a"`, `"b"`, `"c"` and 7 threads
encodes to `[1, 97, 1, 98, 1, 99, 14]` and round-trips. -/
theorem c5_witness :
    serializeService ⟨[0x61], [0x62], [0x63], 7⟩ =
      some [1, 0x61, 1, 0x62, 1, 0x63, 14] ∧
    try_parse serviceNew [1, 0x61, 1, 0x62, 1, 0x63, 14] =
      (true, ⟨[0x61], [0x62], [0x63], 7⟩) := by
  have h1 : isValidUtf8 [0x61] = true := by decide
  have h2 : isValidUtf8 [0x62] = true := by decide
  have h3 : isValidUtf8 [0x63] = true := by decide
  have h : serializeService ⟨[0x61], [0x62], [0x63], 7⟩ =
      some [1, 0x61, 1, 0x62, 1, 0x63, 14] := by
    simp [serializeService, encodeString, encodeI32, zigzagEncode, encodeVarint,
      h1, h2, h3]
  exact ⟨h, c5_serialize_parse_roundtrip _ _ h serviceNew⟩

/-- C1: evaluating `main` on a configuration file whose bytes do not decode
(the empty sequence): `try_parse` does report "not a job" (`Ok(false)`),
but the `?` operator in `service.try_parse(&input)?` only propagates `Err`
and discards the `false`, so `main` still calls `infer`, which attempts
model loading with the default (empty) model path — the trace of the run
is exactly the attempted model load.  The pipeline therefore <b>does</b>
run after a failed parse, contrary to the claim. -/
theorem c1_failed_parse_still_runs_pipeline :
    deserializeService [] = none ∧
    try_parse serviceNew [] = (false, serviceNew) ∧
    mainRun envParseFail =
      (.ran (.fail .modelLoad), [Event.loadModel []]) := by
  refine ⟨by decide, by decide, by decide⟩

/-- C6: whenever the run fails before reaching persistence — any outcome
other than success that is not a `File::create` or `write_all` failure,
panics included — the trace contains no `File::create` and no `write_all`
attempt at all, so nothing is created at the output destination. -/
theorem c6_prepersistence_failure_writes_nothing (env : Env)
    (svc : TfLiteInferenceService)
    (h1 : (infer env svc).1 ≠ .ok)
    (h2 : (infer env svc).1 ≠ .fail .createFail)
    (h3 : (infer env svc).1 ≠ .fail .writeFail) :
    (∀ p, Event.createFile p ∉ (infer env svc).2) ∧
    (∀ p bts, Event.writeFile p bts ∉ (infer env svc).2) := by
  rcases infer_cases env svc with
      ⟨hA, hE⟩ | ⟨hA, hB, hE⟩ | ⟨hA, hB, hC, hE⟩ | ⟨hA, hB, hC, hD, hE⟩ |
      ⟨hA, hB, hC, hD, hL, hE⟩ |
      ⟨jj, hA, hB, hC, hD, hI, hF, hE⟩ |
      ⟨jj, cc, hA, hB, hC, hD, hI, hF, hT, hE⟩ |
      ⟨jj, cc, ll, hA, hB, hC, hD, hI, hF, hT, hL2, hE⟩ |
      ⟨jj, cc, ll, hA, hB, hC, hD, hI, hF, hT, hL2, hV, hE⟩ |
      ⟨jj, cc, ll, hA, hB, hC, hD, hI, hF, hT, hL2, hV, hO, hE⟩ |
      ⟨jj, cc, ll, oo, orr, hA, hB, hC, hD, hI, hF, hT, hL2, hV, hO, hD2, hE⟩ |
      ⟨jj, cc, ll, oo, orr, out, hA, hB, hC, hD, hI, hF, hT, hL2, hV, hO, hD2, hCr, hE⟩ |
      ⟨jj, cc, ll, oo, orr, out, hA, hB, hC, hD, hI, hF, hT, hL2, hV, hO, hD2, hCr, hW, hE⟩ |
      ⟨jj, cc, ll, oo, orr, out, hA, hB, hC, hD, hI, hF, hT, hL2, hV, hO, hD2, hCr, hW, hE⟩ <;>
    simp_all

/-- Witness for C6: a run failing at model load attempts neither a
`File::create` nor a `write_all`. -/
theorem c6_witness :
    Event.createFile [0x2F, 0x6F] ∉ (infer envParseFail svcDemo).2 ∧
    Event.writeFile [0x2F, 0x6F] [7, 8] ∉ (infer envParseFail svcDemo).2 :=
  ⟨(c6_prepersistence_failure_writes_nothing envParseFail svcDemo
      (by decide) (by decide) (by decide)).1 [0x2F, 0x6F],
   (c6_prepersistence_failure_writes_nothing envParseFail svcDemo
      (by decide) (by decide) (by decide)).2 [0x2F, 0x6F] [7, 8]⟩

/-- C7: on a successful run, the write attempts in the trace are exactly
one `write_all` of the backend's first-output-tensor bytes, verbatim, to
`Path::new("/").join(output_tensor_path)`. -/
theorem c7_success_writes_output_to_joined_path (env : Env)
    (svc : TfLiteInferenceService) (h : (infer env svc).1 = .ok)
    (p bts : List UInt8) :
    Event.writeFile p bts ∈ (infer env svc).2 ↔
      (p = pathJoin rootDir svc.output_tensor_path ∧
       env.outputs.head?.bind env.outData = some bts) := by
  rcases infer_cases env svc with
      ⟨hA, hE⟩ | ⟨hA, hB, hE⟩ | ⟨hA, hB, hC, hE⟩ | ⟨hA, hB, hC, hD, hE⟩ |
      ⟨hA, hB, hC, hD, hL, hE⟩ |
      ⟨jj, hA, hB, hC, hD, hI, hF, hE⟩ |
      ⟨jj, cc, hA, hB, hC, hD, hI, hF, hT, hE⟩ |
      ⟨jj, cc, ll, hA, hB, hC, hD, hI, hF, hT, hL2, hE⟩ |
      ⟨jj, cc, ll, hA, hB, hC, hD, hI, hF, hT, hL2, hV, hE⟩ |
      ⟨jj, cc, ll, hA, hB, hC, hD, hI, hF, hT, hL2, hV, hO, hE⟩ |
      ⟨jj, cc, ll, oo, orr, hA, hB, hC, hD, hI, hF, hT, hL2, hV, hO, hD2, hE⟩ |
      ⟨jj, cc, ll, oo, orr, out, hA, hB, hC, hD, hI, hF, hT, hL2, hV, hO, hD2, hCr, hE⟩ |
      ⟨jj, cc, ll, oo, orr, out, hA, hB, hC, hD, hI, hF, hT, hL2, hV, hO, hD2, hCr, hW, hE⟩ |
      ⟨jj, cc, ll, oo, orr, out, hA, hB, hC, hD, hI, hF, hT, hL2, hV, hO, hD2, hCr, hW, hE⟩ <;>
    simp_all <;> exact fun _ => eq_comm

/-- Witness for C7: the healthy backend writes `[7, 8]` — the bytes of its
sole output tensor — to `"/o"`, the root joined with the configured output
path `"o"`. -/
theorem c7_witness :
    Event.writeFile [0x2F, 0x6F] [7, 8] ∈ (infer envHappy svcDemo).2 ∧
    envHappy.outputs.head?.bind envHappy.outData = some [7, 8] :=
  ⟨(c7_success_writes_output_to_joined_path envHappy svcDemo (by decide)
      [0x2F, 0x6F] [7, 8]).mpr ⟨by decide, by decide⟩,
   by decide⟩

/-- C8: in every run, whenever `allocate_tensors` is attempted (at any
trace position `j`), the interpreter's thread count has already been set
from `num_threads` at the strictly earlier position 3; allocation never
precedes thread configuration. -/
theorem c8_threads_set_before_allocation (env : Env)
    (svc : TfLiteInferenceService) (j : Nat)
    (hj : (infer env svc).2.get? j = some Event.allocateTensors) :
    (infer env svc).2.get? 3 = some (Event.setNumThreads svc.num_threads) ∧
      3 < j := by
  rcases infer_cases env svc with
      ⟨hA, hE⟩ | ⟨hA, hB, hE⟩ | ⟨hA, hB, hC, hE⟩ | ⟨hA, hB, hC, hD, hE⟩ |
      ⟨hA, hB, hC, hD, hL, hE⟩ |
      ⟨jj, hA, hB, hC, hD, hI, hF, hE⟩ |
      ⟨jj, cc, hA, hB, hC, hD, hI, hF, hT, hE⟩ |
      ⟨jj, cc, ll, hA, hB, hC, hD, hI, hF, hT, hL2, hE⟩ |
      ⟨jj, cc, ll, hA, hB, hC, hD, hI, hF, hT, hL2, hV, hE⟩ |
      ⟨jj, cc, ll, hA, hB, hC, hD, hI, hF, hT, hL2, hV, hO, hE⟩ |
      ⟨jj, cc, ll, oo, orr, hA, hB, hC, hD, hI, hF, hT, hL2, hV, hO, hD2, hE⟩ |
      ⟨jj, cc, ll, oo, orr, out, hA, hB, hC, hD, hI, hF, hT, hL2, hV, hO, hD2, hCr, hE⟩ |
      ⟨jj, cc, ll, oo, orr, out, hA, hB, hC, hD, hI, hF, hT, hL2, hV, hO, hD2, hCr, hW, hE⟩ |
      ⟨jj, cc, ll, oo, orr, out, hA, hB, hC, hD, hI, hF, hT, hL2, hV, hO, hD2, hCr, hW, hE⟩ <;>
    rcases j with _ | _ | _ | _ | j <;> simp_all

/-- Witness for C8: in the healthy run, allocation is attempted at
position 4 and the thread count was set at position 3. -/
theorem c8_witness :
    (infer envHappy svcDemo).2.get? 3 = some (Event.setNumThreads 1) ∧
      3 < 4 :=
  c8_threads_set_before_allocation envHappy svcDemo 4 (by decide)

/-- C9: a run that reaches output extraction against a model with zero
output tensors panics at the unchecked `outputs[0]` — it does not return
an error result; no error branch exists for this case. -/
theorem c9_zero_outputs_panics (env : Env) (svc : TfLiteInferenceService)
    (ii len : Nat) (contents : List UInt8)
    (hmo : env.modelOk svc.model_path = true) (hbn : env.builderOk = true)
    (hbd : env.buildOk = true) (hal : env.allocOk = true)
    (hin : env.inputs = [ii])
    (hfs : env.fs svc.input_tensor_path = some contents)
    (htl : env.tensorLen ii = some len) (hlen : len ≤ contents.length)
    (hiv : env.invokeOk = true) (hout : env.outputs = []) :
    (infer env svc).1 = .panicked .outputsIndexOutOfBounds ∧
    ((infer env svc).1).isErr = false := by
  rcases infer_cases env svc with
      ⟨hA, hE⟩ | ⟨hA, hB, hE⟩ | ⟨hA, hB, hC, hE⟩ | ⟨hA, hB, hC, hD, hE⟩ |
      ⟨hA, hB, hC, hD, hL, hE⟩ |
      ⟨jj, hA, hB, hC, hD, hI, hF, hE⟩ |
      ⟨jj, cc, hA, hB, hC, hD, hI, hF, hT, hE⟩ |
      ⟨jj, cc, ll, hA, hB, hC, hD, hI, hF, hT, hL2, hE⟩ |
      ⟨jj, cc, ll, hA, hB, hC, hD, hI, hF, hT, hL2, hV, hE⟩ |
      ⟨jj, cc, ll, hA, hB, hC, hD, hI, hF, hT, hL2, hV, hO, hE⟩ |
      ⟨jj, cc, ll, oo, orr, hA, hB, hC, hD, hI, hF, hT, hL2, hV, hO, hD2, hE⟩ |
      ⟨jj, cc, ll, oo, orr, out, hA, hB, hC, hD, hI, hF, hT, hL2, hV, hO, hD2, hCr, hE⟩ |
      ⟨jj, cc, ll, oo, orr, out, hA, hB, hC, hD, hI, hF, hT, hL2, hV, hO, hD2, hCr, hW, hE⟩ |
      ⟨jj, cc, ll, oo, orr, out, hA, hB, hC, hD, hI, hF, hT, hL2, hV, hO, hD2, hCr, hW, hE⟩ <;>
    simp_all [RunOutcome.isErr] <;> omega

/-- Witness for C9: the healthy backend with zero output tensors panics
out of the run instead of returning an error. -/
theorem c9_witness :
    (infer envNoOutputs svcDemo).1 = .panicked .outputsIndexOutOfBounds ∧
    ((infer envNoOutputs svcDemo).1).isErr = false :=
  c9_zero_outputs_panics envNoOutputs svcDemo 0 2 [9, 9, 9] (by decide)
    (by decide) (by decide) (by decide) (by decide) (by decide) (by decide)
    (by decide) (by decide) (by decide)

/-- C10: `Path::join` of the fixed root `"/"` with an absolute
`output_tensor_path` yields that path unchanged, so the configured
absolute path itself — not a root-prefixed variant — is the destination of
every write attempt the pipeline makes. -/
theorem c10_absolute_output_path_is_destination (p : List UInt8)
    (hp : isAbsolutePath p = true) (env : Env)
    (svc : TfLiteInferenceService) (hsvc : svc.output_tensor_path = p) :
    pathJoin rootDir p = p ∧
    (∀ q bts, Event.writeFile q bts ∈ (infer env svc).2 → q = p) := by
  have hjoin : pathJoin rootDir p = p := by rw [pathJoin, if_pos hp]
  refine ⟨hjoin, ?_⟩
  intro q bts hmem
  rcases infer_cases env svc with
      ⟨hA, hE⟩ | ⟨hA, hB, hE⟩ | ⟨hA, hB, hC, hE⟩ | ⟨hA, hB, hC, hD, hE⟩ |
      ⟨hA, hB, hC, hD, hL, hE⟩ |
      ⟨jj, hA, hB, hC, hD, hI, hF, hE⟩ |
      ⟨jj, cc, hA, hB, hC, hD, hI, hF, hT, hE⟩ |
      ⟨jj, cc, ll, hA, hB, hC, hD, hI, hF, hT, hL2, hE⟩ |
      ⟨jj, cc, ll, hA, hB, hC, hD, hI, hF, hT, hL2, hV, hE⟩ |
      ⟨jj, cc, ll, hA, hB, hC, hD, hI, hF, hT, hL2, hV, hO, hE⟩ |
      ⟨jj, cc, ll, oo, orr, hA, hB, hC, hD, hI, hF, hT, hL2, hV, hO, hD2, hE⟩ |
      ⟨jj, cc, ll, oo, orr, out, hA, hB, hC, hD, hI, hF, hT, hL2, hV, hO, hD2, hCr, hE⟩ |
      ⟨jj, cc, ll, oo, orr, out, hA, hB, hC, hD, hI, hF, hT, hL2, hV, hO, hD2, hCr, hW, hE⟩ |
      ⟨jj, cc, ll, oo, orr, out, hA, hB, hC, hD, hI, hF, hT, hL2, hV, hO, hD2, hCr, hW, hE⟩ <;>
    simp_all

/-- Witness for C10: with output path `"/o"` (absolute), the healthy run's
write goes to `"/o"` itself. -/
theorem c10_witness :
    pathJoin rootDir [0x2F, 0x6F] = [0x2F, 0x6F] ∧
    Event.writeFile [0x2F, 0x6F] [7, 8] ∈ (infer envHappy svcAbsOut).2 :=
  ⟨(c10_absolute_output_path_is_destination [0x2F, 0x6F] (by decide)
      envHappy svcAbsOut rfl).1,
   by decide⟩

/-- Counterexample for C2: the healthy backend's input tensor wants 2
bytes, the input file `"i"` holds 3 — strictly more — yet `read_exact`
fills the buffer from the file's first 2 bytes and the run succeeds and
writes its output, instead of failing as the claim states. -/
theorem c2_counterexample_longer_input_succeeds :
    envHappy.tensorLen 0 = some 2 ∧
    envHappy.fs svcDemo.input_tensor_path = some [9, 9, 9] ∧
    (infer envHappy svcDemo).1 = .ok ∧
    Event.writeFile [0x2F, 0x6F] [7, 8] ∈ (infer envHappy svcDemo).2 := by
  refine ⟨by decide, by decide, by decide, by decide⟩

/-- C2 amended: the input file may not be shorter than the input tensor —
an under-read is `read_exact`'s `UnexpectedEof` error and nothing is
created at the output — but a file of at least the tensor's byte length is
accepted: only its first `len` bytes are read into the tensor and the run
proceeds. -/
theorem c2_input_file_shorter_fails_longer_truncated (env : Env)
    (svc : TfLiteInferenceService) (ii len : Nat) (contents : List UInt8)
    (hmo : env.modelOk svc.model_path = true) (hbn : env.builderOk = true)
    (hbd : env.buildOk = true) (hal : env.allocOk = true)
    (hin : env.inputs = [ii])
    (hfs : env.fs svc.input_tensor_path = some contents)
    (htl : env.tensorLen ii = some len) :
    (contents.length < len →
      (infer env svc).1 = .fail .inputEof ∧
      (∀ p, Event.createFile p ∉ (infer env svc).2) ∧
      (∀ p bts, Event.writeFile p bts ∉ (infer env svc).2)) ∧
    (len ≤ contents.length →
      Event.readInput (contents.take len) ∈ (infer env svc).2) := by
  rcases infer_cases env svc with
      ⟨hA, hE⟩ | ⟨hA, hB, hE⟩ | ⟨hA, hB, hC, hE⟩ | ⟨hA, hB, hC, hD, hE⟩ |
      ⟨hA, hB, hC, hD, hL, hE⟩ |
      ⟨jj, hA, hB, hC, hD, hI, hF, hE⟩ |
      ⟨jj, cc, hA, hB, hC, hD, hI, hF, hT, hE⟩ |
      ⟨jj, cc, ll, hA, hB, hC, hD, hI, hF, hT, hL2, hE⟩ |
      ⟨jj, cc, ll, hA, hB, hC, hD, hI, hF, hT, hL2, hV, hE⟩ |
      ⟨jj, cc, ll, hA, hB, hC, hD, hI, hF, hT, hL2, hV, hO, hE⟩ |
      ⟨jj, cc, ll, oo, orr, hA, hB, hC, hD, hI, hF, hT, hL2, hV, hO, hD2, hE⟩ |
      ⟨jj, cc, ll, oo, orr, out, hA, hB, hC, hD, hI, hF, hT, hL2, hV, hO, hD2, hCr, hE⟩ |
      ⟨jj, cc, ll, oo, orr, out, hA, hB, hC, hD, hI, hF, hT, hL2, hV, hO, hD2, hCr, hW, hE⟩ |
      ⟨jj, cc, ll, oo, orr, out, hA, hB, hC, hD, hI, hF, hT, hL2, hV, hO, hD2, hCr, hW, hE⟩ <;>
    constructor <;> intro hlen <;> simp_all <;> omega

/-- Witness for C2: a 3-byte file against a 4-byte tensor fails with
`UnexpectedEof` and attempts no write; the same file against a 2-byte
tensor is read (truncated to `[9, 9]`) and the run proceeds. -/
theorem c2_witness :
    (infer envShortInput svcDemo).1 = .fail .inputEof ∧
    Event.createFile [0x2F, 0x6F] ∉ (infer envShortInput svcDemo).2 ∧
    Event.writeFile [0x2F, 0x6F] [7, 8] ∉ (infer envShortInput svcDemo).2 ∧
    Event.readInput [9, 9] ∈ (infer envHappy svcDemo).2 := by
  have hs := c2_input_file_shorter_fails_longer_truncated envShortInput
    svcDemo 0 4 [9, 9, 9] (by decide) (by decide) (by decide) (by decide)
    (by decide) (by decide) (by decide)
  have hl := c2_input_file_shorter_fails_longer_truncated envHappy
    svcDemo 0 2 [9, 9, 9] (by decide) (by decide) (by decide) (by decide)
    (by decide) (by decide) (by decide)
  exact ⟨(hs.1 (by decide)).1, (hs.1 (by decide)).2.1 [0x2F, 0x6F],
    (hs.1 (by decide)).2.2 [0x2F, 0x6F] [7, 8],
    by simpa using hl.2 (by decide)⟩

/-- Counterexample for C3: against a model with two input tensors the run
does not return any error result — `assert_eq!(inputs.len(), 1)` panics
out of `infer` — so no `CardinalityViolation` error is returned to the
caller. -/
theorem c3_counterexample_two_inputs_panics :
    envTwoInputs.inputs.length = 2 ∧
    (infer envTwoInputs svcDemo).1 = .panicked .assertInputsLen ∧
    ((infer envTwoInputs svcDemo).1).isErr = false := by
  refine ⟨by decide, by decide, by decide⟩

/-- C3 amended: a model whose input tensor count is not exactly one makes
the run panic at the `assert_eq!` (it never returns an error result), and
no output file is created. -/
theorem c3_input_cardinality_panics (env : Env)
    (svc : TfLiteInferenceService)
    (hmo : env.modelOk svc.model_path = true) (hbn : env.builderOk = true)
    (hbd : env.buildOk = true) (hal : env.allocOk = true)
    (hone : env.inputs.length ≠ 1) :
    (infer env svc).1 = .panicked .assertInputsLen ∧
    ((infer env svc).1).isErr = false ∧
    (∀ p, Event.createFile p ∉ (infer env svc).2) ∧
    (∀ p bts, Event.writeFile p bts ∉ (infer env svc).2) := by
  rcases infer_cases env svc with
      ⟨hA, hE⟩ | ⟨hA, hB, hE⟩ | ⟨hA, hB, hC, hE⟩ | ⟨hA, hB, hC, hD, hE⟩ |
      ⟨hA, hB, hC, hD, hL, hE⟩ |
      ⟨jj, hA, hB, hC, hD, hI, hF, hE⟩ |
      ⟨jj, cc, hA, hB, hC, hD, hI, hF, hT, hE⟩ |
      ⟨jj, cc, ll, hA, hB, hC, hD, hI, hF, hT, hL2, hE⟩ |
      ⟨jj, cc, ll, hA, hB, hC, hD, hI, hF, hT, hL2, hV, hE⟩ |
      ⟨jj, cc, ll, hA, hB, hC, hD, hI, hF, hT, hL2, hV, hO, hE⟩ |
      ⟨jj, cc, ll, oo, orr, hA, hB, hC, hD, hI, hF, hT, hL2, hV, hO, hD2, hE⟩ |
      ⟨jj, cc, ll, oo, orr, out, hA, hB, hC, hD, hI, hF, hT, hL2, hV, hO, hD2, hCr, hE⟩ |
      ⟨jj, cc, ll, oo, orr, out, hA, hB, hC, hD, hI, hF, hT, hL2, hV, hO, hD2, hCr, hW, hE⟩ |
      ⟨jj, cc, ll, oo, orr, out, hA, hB, hC, hD, hI, hF, hT, hL2, hV, hO, hD2, hCr, hW, hE⟩ <;>
    simp_all [RunOutcome.isErr]

/-- Witness for C3's amended claim: the two-input backend panics and
attempts no write. -/
theorem c3_witness :
    (infer envTwoInputs svcDemo).1 = .panicked .assertInputsLen ∧
    ((infer envTwoInputs svcDemo).1).isErr = false ∧
    Event.createFile [0x2F, 0x6F] ∉ (infer envTwoInputs svcDemo).2 ∧
    Event.writeFile [0x2F, 0x6F] [7, 8] ∉ (infer envTwoInputs svcDemo).2 := by
  have h := c3_input_cardinality_panics envTwoInputs svcDemo (by decide)
    (by decide) (by decide) (by decide) (by decide)
  exact ⟨h.1, h.2.1, h.2.2.1 [0x2F, 0x6F], h.2.2.2 [0x2F, 0x6F] [7, 8]⟩
